import Mathlib

/-!
Verification of the scoring / best-answer-store / leaderboard core of the
assignment application (source: src/src/pages/3_Complete_Assignments.py).

The development shallowly embeds the Python code:

* DynamoDB items are a structure `Item` with the exact fields written by
  `save_answer_record`; the table is a list of items, `put_item` replaces
  the item with the same `id` (DynamoDB point write) and `get_item` looks
  an item up by `id`.
* `save_answer_record` models the read-compare-write of the source
  (accept when there is no record under the answer id, or when the
  incoming score beats the stored one).  The Python function returns
  `None`; the embedding additionally returns a `SaveOutcome` recording
  whether `put_item` was invoked, which is the function's observable
  effect and the spec's Saved/Rejected outcome.
* Scores are stored as their decimal rendering (Python `str(score)`) and
  read back with `float(...)`; `pyStr` and `parseFloatInt` model this
  (the parser covers exactly the integer strings the store ever writes;
  on other strings Python `float` raises, which no reachable store hits).
* The scorer block is modelled over exact arithmetic: embedding vectors
  are rational lists, `scipy.spatial.distance.cosine` is the clipped
  cosine distance it computes, and Python `int(...)` is truncation toward
  zero.  The exceptions the Python block can raise (`np.dot` on
  mismatched shapes; `int(nan)` when a vector has zero magnitude) are
  modelled as the distinct error values of `ScoreError`.
-/

namespace AssignmentApp

/-! ### Decimal rendering and parsing of scores
Models Python `str(score)` for an integer score, and `float(s)` restricted
to the integer strings the store writes. -/

/-- The character of a decimal digit, as Python renders it. -/
def digitChar (d : ℕ) : Char := Char.ofNat (48 + d)

/-- Numeric value of a decimal digit character, `none` on other characters. -/
def digitVal (c : Char) : Option ℕ :=
  if 48 ≤ c.toNat ∧ c.toNat ≤ 57 then some (c.toNat - 48) else none

/-- Accumulator pass of decimal parsing: most significant digit first. -/
def parseDigitsAux : ℕ → List Char → Option ℕ
  | acc, [] => some acc
  | acc, c :: cs =>
    match digitVal c with
    | some d => parseDigitsAux (acc * 10 + d) cs
    | none => none

/-- Parse a nonempty all-digit character list as a natural number. -/
def parseDigits (cs : List Char) : Option ℕ :=
  if cs.isEmpty then none else parseDigitsAux 0 cs

/-- Python `float(s)` on the decimal-integer strings produced by `str` on an
int (an optional minus sign followed by digits); such parses are exact, so
the model returns the integer itself. -/
def parseFloatInt (s : String) : Option ℤ :=
  match s.data with
  | [] => none
  | c :: cs =>
    if c = '-' then (parseDigits cs).map (fun n => -(n : ℤ))
    else (parseDigits (c :: cs)).map (fun n => (n : ℤ))

/-- Decimal digit characters of a natural number, most significant first. -/
def natToChars (n : ℕ) : List Char :=
  if n = 0 then ['0'] else ((Nat.digits 10 n).map digitChar).reverse

/-- Python `str` on an int. -/
def pyStr (z : ℤ) : String :=
  if z < 0 then ⟨'-' :: natToChars (-z).toNat⟩ else ⟨natToChars z.toNat⟩

/-- Lexicographic (string) order on the character data, the order Python
would use when comparing the stored score strings directly. -/
def strLexLt (a b : String) : Prop := List.Lex (· < ·) a.data b.data

/-! ### The answer store
Embeds `get_answer_record_from_dynamodb`, `save_answer_record` and the
DynamoDB table they use.  An item carries exactly the attributes
`save_answer_record` writes; the table is the list of items, point reads
find the item with the requested `id`, point writes replace it. -/

/-- One DynamoDB item as written by `save_answer_record`. -/
structure Item where
  id : String
  student_id : String
  assignment_id : String
  question_id : String
  assignment_question_id : String
  answer : String
  score : String
  record_type : String
deriving DecidableEq, Repr

/-- The DynamoDB table holding the application's records. -/
abbrev Table := List Item

/-- The answer id the source builds from the key triple (the pieces joined
with underscores after an answer marker). -/
def answerId (student_id assignment_id question_id : String) : String :=
  "answer_" ++ student_id ++ "_" ++ assignment_id ++ "_" ++ question_id

/-- DynamoDB `get_item` on the table's `id` key. -/
def getItem (t : Table) (id : String) : Option Item :=
  t.find? (fun it => it.id == id)

/-- DynamoDB `put_item`: full replacement of the item stored under the new
item's `id`, insertion when none is stored. -/
def putItem (t : Table) (item : Item) : Table :=
  if t.any (fun it => it.id == item.id)
  then t.map (fun it => if it.id == item.id then item else it)
  else t ++ [item]

/-- `get_answer_record_from_dynamodb`: point read of the answer record of a
(student, assignment, question) key. -/
def get_answer_record_from_dynamodb (t : Table)
    (student_id assignment_id question_id : String) : Option Item :=
  getItem t (answerId student_id assignment_id question_id)

/-- The numeric value `float(...)` reads back from an item's stored score
string (every score the store writes is `str` of an integer, on which the
parse is exact; on other strings Python would raise, which no reachable
store hits, so the default is irrelevant). -/
def storedScoreVal (it : Item) : ℤ := (parseFloatInt it.score).getD 0

/-- The item `save_answer_record` writes. -/
def mkAnswerItem (student_id assignment_id question_id answer : String)
    (score : ℤ) : Item where
  id := answerId student_id assignment_id question_id
  student_id := student_id
  assignment_id := assignment_id
  question_id := question_id
  assignment_question_id := assignment_id ++ "_" ++ question_id
  answer := answer
  score := pyStr score
  record_type := "answer"

/-- Whether a call to `save_answer_record` invoked `put_item` (Saved) or
left the table untouched (Rejected). -/
inductive SaveOutcome where
  | Saved
  | Rejected
deriving DecidableEq, Repr

/-- `save_answer_record`: read the existing record for the key, overwrite it
only when there is none or the incoming score is strictly greater than the
stored one. -/
def save_answer_record (t : Table)
    (student_id assignment_id question_id answer : String) (score : ℤ) :
    Table × SaveOutcome :=
  match get_answer_record_from_dynamodb t student_id assignment_id question_id with
  | none =>
    (putItem t (mkAnswerItem student_id assignment_id question_id answer score),
      SaveOutcome.Saved)
  | some existing =>
    if storedScoreVal existing < score then
      (putItem t (mkAnswerItem student_id assignment_id question_id answer score),
        SaveOutcome.Saved)
    else (t, SaveOutcome.Rejected)

/-- Iterated `save_answer_record` with the same arguments, keeping the table. -/
def saveIter (student_id assignment_id question_id answer : String) (score : ℤ) :
    ℕ → Table → Table
  | 0, t => t
  | n + 1, t =>
    saveIter student_id assignment_id question_id answer score n
      (save_answer_record t student_id assignment_id question_id answer score).1

/-- One submission of the answer flow, as `save_answer_record` receives it. -/
structure SaveReq where
  student_id : String
  assignment_id : String
  question_id : String
  answer : String
  score : ℤ

/-- The table after one submission. -/
def applySave (t : Table) (r : SaveReq) : Table :=
  (save_answer_record t r.student_id r.assignment_id r.question_id r.answer r.score).1

/-- The table after a sequence of submissions. -/
def applySaves (reqs : List SaveReq) (t : Table) : Table :=
  reqs.foldl applySave t

/-- The key a submission writes under. -/
def reqId (r : SaveReq) : String :=
  answerId r.student_id r.assignment_id r.question_id

/-- Scores of the submissions for the given answer id that the store
accepted along a sequence of submissions. -/
def acceptedFor : List SaveReq → Table → String → List ℤ
  | [], _, _ => []
  | r :: rs, t, key =>
    if (save_answer_record t r.student_id r.assignment_id r.question_id
          r.answer r.score).2 = SaveOutcome.Saved ∧ reqId r = key
    then r.score :: acceptedFor rs (applySave t r) key
    else acceptedFor rs (applySave t r) key

/-- Number of items stored under an id. -/
def keyCount (t : Table) (id : String) : ℕ :=
  t.countP (fun it => it.id == id)

/-- The numeric score stored under an id, when a record exists. -/
def scoreAt (t : Table) (id : String) : Option ℤ :=
  (getItem t id).map storedScoreVal

/-- Order on optional stored scores: an absent record is below everything,
a present record may only be replaced by one of greater or equal score. -/
def optScoreLe : Option ℤ → Option ℤ → Prop
  | none, _ => True
  | some _, none => False
  | some a, some b => a ≤ b

/-- One step of the running maximum over optional scores. -/
def maxOptStep (o : Option ℤ) (s : ℤ) : Option ℤ :=
  match o with
  | none => some s
  | some a => some (max a s)

/-- Maximum of an optional starting score and a list of scores. -/
def maxOpt (o : Option ℤ) (l : List ℤ) : Option ℤ := l.foldl maxOptStep o

/-- The item a submission writes. -/
def reqItem (r : SaveReq) : Item :=
  mkAnswerItem r.student_id r.assignment_id r.question_id r.answer r.score

/-! ### The leaderboard query
Embeds `get_high_score_answer_records_from_dynamodb`: scan-filter the
answer records of an (assignment, question) pair, sort them descending by
the score `float(...)` reads back, cut the list with the Python slice
`sorted_records[:limit]`.  Python's `sorted` is modelled by a comparison
sort over the same key (the claims proved below are insensitive to the
order of ties, which the source leaves unspecified). -/

/-- The records the scan filter keeps for an (assignment, question) pair. -/
def answerRecords (t : Table) (assignment_id question_id : String) : List Item :=
  t.filter (fun it =>
    it.record_type == "answer" &&
      it.assignment_question_id == (assignment_id ++ "_" ++ question_id))

/-- Descending order on the numeric value of the stored score, the sort key
of the leaderboard. -/
def descRel (a b : Item) : Prop := storedScoreVal b ≤ storedScoreVal a

instance : DecidableRel descRel := fun a b =>
  inferInstanceAs (Decidable (storedScoreVal b ≤ storedScoreVal a))

instance : IsTotal Item descRel :=
  ⟨fun a b => le_total (storedScoreVal b) (storedScoreVal a)⟩

instance : IsTrans Item descRel :=
  ⟨fun _ _ _ h1 h2 => le_trans h2 h1⟩

/-- Python `sorted(records, ..., reverse=True)` on the score key. -/
def sortedByScoreDesc (l : List Item) : List Item := l.insertionSort descRel

/-- Sorted descending by stored score. -/
def SortedDesc (l : List Item) : Prop := List.Sorted descRel l

/-- The Python slice `l[:n]` for an arbitrary integer bound: a nonnegative
bound keeps the first `n` entries, a negative bound drops the last `-n`. -/
def pySlice (n : ℤ) (l : List Item) : List Item :=
  if 0 ≤ n then l.take n.toNat else l.take (l.length - (-n).toNat)

/-- `get_high_score_answer_records_from_dynamodb`: top scores of a question
(the source's default for `limit` is 5). -/
def get_high_score_answer_records_from_dynamodb (t : Table)
    (assignment_id question_id : String) (limit : ℤ) : List Item :=
  pySlice limit (sortedByScoreDesc (answerRecords t assignment_id question_id))

/-- A stored answer record with score 95, as `save_answer_record` writes it. -/
def sampleItemA : Item where
  id := "answer_alice_A1_Q1"
  student_id := "alice"
  assignment_id := "A1"
  question_id := "Q1"
  assignment_question_id := "A1_Q1"
  answer := "first answer"
  score := "95"
  record_type := "answer"

/-- A stored answer record with score 70. -/
def sampleItemB : Item where
  id := "answer_bob_A1_Q1"
  student_id := "bob"
  assignment_id := "A1"
  question_id := "Q1"
  assignment_question_id := "A1_Q1"
  answer := "second answer"
  score := "70"
  record_type := "answer"

/-- A table holding two answer records for the pair (A1, Q1). -/
def sampleTable : Table := [sampleItemA, sampleItemB]

/-! ### The scorer
Embeds the scoring block of the answer page over exact arithmetic:
embedding vectors are rational lists, `scipy.spatial.distance.cosine` is
the distance `1 - uv / sqrt(uu * vv)` clipped to the interval from 0 to 2
(the clip scipy applies against floating-point error), and Python
`int(...)` is truncation toward zero.  The block has no error handling of
its own: on vectors of different lengths `np.dot` raises, and on a
zero-magnitude vector the distance is NaN and `int(nan)` raises; the
embedding returns the two exceptional outcomes as values of `ScoreError`. -/

/-- Dot product of two rational vectors (`np.dot` on equal-length 1-D
arrays; on the self products `dot u u` it is the squared magnitude). -/
def dot (u v : List ℚ) : ℚ := (List.zipWith (fun a b => a * b) u v).sum

/-- The exceptional outcomes of the scoring block. -/
inductive ScoreError where
  | DimensionMismatch
  | EmptyVector
deriving DecidableEq, Repr

/-- `scipy.spatial.distance.cosine` on nonzero vectors: the cosine
distance, clipped to the interval from 0 to 2. -/
noncomputable def cosineDistance (u v : List ℚ) : ℝ :=
  max 0 (min (1 - (dot u v : ℝ) / Real.sqrt ((dot u u : ℝ) * (dot v v : ℝ))) 2)

/-- Python `int(...)` on a real value: truncation toward zero. -/
noncomputable def pyInt (x : ℝ) : ℤ := if 0 ≤ x then ⌊x⌋ else ⌈x⌉

/-- The scoring block: `score = int(100 - dist * 100)` with
`dist = distance.cosine(v1, v2)`, returning the exceptional outcomes as
errors. -/
noncomputable def computeScore (u v : List ℚ) : Except ScoreError ℤ :=
  if u.length ≠ v.length then Except.error ScoreError.DimensionMismatch
  else if dot u u = 0 ∨ dot v v = 0 then Except.error ScoreError.EmptyVector
  else Except.ok (pyInt (100 - cosineDistance u v * 100))

lemma digitVal_digitChar {d : ℕ} (hd : d < 10) : digitVal (digitChar d) = some d := by
  interval_cases d <;> decide

lemma digitChar_mem_range {d : ℕ} (hd : d < 10) :
    48 ≤ (digitChar d).toNat ∧ (digitChar d).toNat ≤ 57 := by
  interval_cases d <;> decide

lemma parseDigitsAux_append (l1 l2 : List Char) (acc : ℕ) :
    parseDigitsAux acc (l1 ++ l2) =
      match parseDigitsAux acc l1 with
      | some a => parseDigitsAux a l2
      | none => none := by
  induction l1 generalizing acc with
  | nil => simp [parseDigitsAux]
  | cons c cs ih =>
    simp only [List.cons_append, parseDigitsAux]
    cases hc : digitVal c with
    | none => simp
    | some d => simpa using ih _

lemma parseDigitsAux_digits (ds : List ℕ) (h : ∀ d ∈ ds, d < 10) (acc : ℕ) :
    parseDigitsAux acc ((ds.map digitChar).reverse) =
      some (acc * 10 ^ ds.length + Nat.ofDigits 10 ds) := by
  induction ds generalizing acc with
  | nil => simp [parseDigitsAux, Nat.ofDigits]
  | cons d ds ih =>
    have hd : d < 10 := h d (by simp)
    have hds : ∀ x ∈ ds, x < 10 := fun x hx => h x (by simp [hx])
    rw [List.map_cons, List.reverse_cons, parseDigitsAux_append, ih hds acc]
    simp only [parseDigitsAux, digitVal_digitChar hd]
    rw [Nat.ofDigits_cons]
    congr 1
    simp only [List.length_cons, pow_succ]
    ring

lemma parseDigits_natToChars (n : ℕ) : parseDigits (natToChars n) = some n := by
  by_cases h0 : n = 0
  · subst h0; decide
  · have hne : Nat.digits 10 n ≠ [] := Nat.digits_ne_nil_iff_ne_zero.mpr h0
    have hlt : ∀ d ∈ Nat.digits 10 n, d < 10 :=
      fun d hd => Nat.digits_lt_base (by norm_num) hd
    have hcons : ((Nat.digits 10 n).map digitChar).reverse ≠ [] := by
      simpa using hne
    rw [natToChars, if_neg h0, parseDigits, if_neg (by simpa [List.isEmpty_iff] using hcons)]
    rw [parseDigitsAux_digits _ hlt 0]
    simp [Nat.ofDigits_digits]

lemma natToChars_all_digits (n : ℕ) :
    ∀ c ∈ natToChars n, 48 ≤ c.toNat ∧ c.toNat ≤ 57 := by
  intro c hc
  rw [natToChars] at hc
  by_cases h0 : n = 0
  · rw [if_pos h0] at hc
    simp at hc
    subst hc; decide
  · rw [if_neg h0] at hc
    rw [List.mem_reverse, List.mem_map] at hc
    obtain ⟨d, hd, rfl⟩ := hc
    exact digitChar_mem_range (Nat.digits_lt_base (by norm_num) hd)

lemma natToChars_ne_nil (n : ℕ) : natToChars n ≠ [] := by
  rw [natToChars]
  by_cases h0 : n = 0
  · rw [if_pos h0]; simp
  · rw [if_neg h0]
    simpa using Nat.digits_ne_nil_iff_ne_zero.mpr h0

lemma parseFloatInt_dash (cs : List Char) (n : ℕ) (h : parseDigits cs = some n) :
    parseFloatInt ⟨'-' :: cs⟩ = some (-(n : ℤ)) := by
  simp [parseFloatInt, h]

lemma parseFloatInt_cons (c : Char) (cs : List Char) (hc : c ≠ '-') (n : ℕ)
    (h : parseDigits (c :: cs) = some n) :
    parseFloatInt ⟨c :: cs⟩ = some ((n : ℤ)) := by
  simp [parseFloatInt, hc, h]

/-- Round trip: parsing back the decimal rendering of an integer recovers
the integer exactly, for every integer. -/
lemma parseFloatInt_pyStr (z : ℤ) : parseFloatInt (pyStr z) = some z := by
  by_cases hz : z < 0
  · rw [pyStr, if_pos hz, parseFloatInt_dash _ _ (parseDigits_natToChars _)]
    congr 1
    have h0 : (0:ℤ) ≤ -z := by omega
    rw [Int.toNat_of_nonneg h0]
    ring
  · rw [pyStr, if_neg hz]
    obtain ⟨c, cs, hcons⟩ : ∃ c cs, natToChars z.toNat = c :: cs := by
      cases h : natToChars z.toNat with
      | nil => exact absurd h (natToChars_ne_nil _)
      | cons c cs => exact ⟨c, cs, rfl⟩
    have hcdig : 48 ≤ c.toNat ∧ c.toNat ≤ 57 :=
      natToChars_all_digits z.toNat c (by rw [hcons]; simp)
    have hcne : c ≠ '-' := by
      intro h
      subst h
      revert hcdig; decide
    rw [hcons, parseFloatInt_cons c cs hcne z.toNat (by rw [← hcons]; exact parseDigits_natToChars _)]
    congr 1
    exact Int.toNat_of_nonneg (by omega)

lemma maxOpt_nil (o : Option ℤ) : maxOpt o [] = o := rfl

lemma maxOpt_cons_none (s : ℤ) (l : List ℤ) : maxOpt none (s :: l) = maxOpt (some s) l := rfl

lemma maxOpt_cons_some (a s : ℤ) (l : List ℤ) :
    maxOpt (some a) (s :: l) = maxOpt (some (max a s)) l := rfl

lemma storedScoreVal_mkAnswerItem (student_id assignment_id question_id answer : String)
    (score : ℤ) :
    storedScoreVal (mkAnswerItem student_id assignment_id question_id answer score) = score := by
  simp [storedScoreVal, mkAnswerItem, parseFloatInt_pyStr]

lemma getItem_map_replace_ne (t : Table) (item : Item) (id' : String) (h : id' ≠ item.id) :
    getItem (t.map (fun it => if it.id == item.id then item else it)) id' = getItem t id' := by
  induction t with
  | nil => rfl
  | cons a rest ih =>
    rw [List.map_cons]
    by_cases ha : a.id = item.id
    · have h1 : ((if a.id == item.id then item else a) : Item) = item := by
        simp [beq_iff_eq.mpr ha]
      have h2 : (item.id == id') = false := beq_eq_false_iff_ne.mpr (fun hx => h hx.symm)
      have h3 : (a.id == id') = false := by
        rw [ha]
        exact h2
      rw [h1]
      simp only [getItem, List.find?_cons, h2, h3]
      exact ih
    · have h1 : ((if a.id == item.id then item else a) : Item) = a := by
        simp [beq_eq_false_iff_ne.mpr ha]
      rw [h1]
      simp only [getItem, List.find?_cons]
      cases hq : (a.id == id') with
      | true => rfl
      | false => exact ih

lemma getItem_putItem_self (t : Table) (item : Item) :
    getItem (putItem t item) item.id = some item := by
  rw [putItem]
  by_cases hany : t.any (fun it => it.id == item.id)
  · rw [if_pos hany]
    induction t with
    | nil => simp at hany
    | cons a rest ih =>
      rw [List.map_cons]
      by_cases ha : a.id = item.id
      · have h1 : ((if a.id == item.id then item else a) : Item) = item := by
          simp [beq_iff_eq.mpr ha]
        rw [h1]
        simp only [getItem, List.find?_cons, beq_self_eq_true]
      · have h1 : ((if a.id == item.id then item else a) : Item) = a := by
          simp [beq_eq_false_iff_ne.mpr ha]
        have hrest : rest.any (fun it => it.id == item.id) := by
          simp only [List.any_cons, beq_eq_false_iff_ne.mpr ha, Bool.false_or] at hany
          exact hany
        rw [h1]
        simp only [getItem, List.find?_cons, beq_eq_false_iff_ne.mpr ha]
        exact ih hrest
  · rw [if_neg hany, getItem, List.find?_append]
    have h1 : t.find? (fun it => it.id == item.id) = none := by
      rw [List.find?_eq_none]
      intro x hx hpx
      exact hany (List.any_eq_true.mpr ⟨x, hx, hpx⟩)
    simp [h1]

lemma getItem_putItem_ne (t : Table) (item : Item) (id' : String) (h : id' ≠ item.id) :
    getItem (putItem t item) id' = getItem t id' := by
  rw [putItem]
  by_cases hany : t.any (fun it => it.id == item.id)
  · rw [if_pos hany]
    exact getItem_map_replace_ne t item id' h
  · rw [if_neg hany, getItem, List.find?_append]
    have h1 : List.find? (fun it => it.id == id') [item] = none := by
      simp [beq_eq_false_iff_ne.mpr (fun hx => h hx.symm)]
    rw [h1, Option.or_none]
    rfl

lemma keyCount_putItem_ne (t : Table) (item : Item) (id : String) (h : item.id ≠ id) :
    keyCount (putItem t item) id = keyCount t id := by
  rw [putItem]
  by_cases hany : t.any (fun it => it.id == item.id)
  · rw [if_pos hany, keyCount, List.countP_map, keyCount]
    apply List.countP_congr
    intro a _
    show ((if a.id == item.id then item else a).id == id) = true ↔ (a.id == id) = true
    by_cases ha : a.id = item.id
    · have h1 : ((if a.id == item.id then item else a) : Item) = item := by
        simp [beq_iff_eq.mpr ha]
      rw [h1, beq_eq_false_iff_ne.mpr h, beq_eq_false_iff_ne.mpr (ha ▸ h)]
    · have h1 : ((if a.id == item.id then item else a) : Item) = a := by
        simp [beq_eq_false_iff_ne.mpr ha]
      rw [h1]
  · rw [if_neg hany, keyCount, List.countP_append, keyCount]
    have h1 : List.countP (fun it => it.id == id) [item] = 0 := by
      rw [List.countP_eq_zero]
      intro a ha
      simp only [List.mem_singleton] at ha
      subst ha
      simp [beq_eq_false_iff_ne.mpr h]
    omega

lemma keyCount_putItem_self (t : Table) (item : Item) :
    keyCount (putItem t item) item.id ≤ max 1 (keyCount t item.id) := by
  rw [putItem]
  by_cases hany : t.any (fun it => it.id == item.id)
  · rw [if_pos hany, keyCount, List.countP_map]
    have heq : List.countP ((fun it => it.id == item.id) ∘
        (fun it => if it.id == item.id then item else it)) t = keyCount t item.id := by
      apply List.countP_congr
      intro a _
      show ((if a.id == item.id then item else a).id == item.id) = true ↔
        (a.id == item.id) = true
      by_cases ha : a.id = item.id
      · have h1 : ((if a.id == item.id then item else a) : Item) = item := by
          simp [beq_iff_eq.mpr ha]
        rw [h1]
        simp [beq_iff_eq.mpr ha]
      · have h1 : ((if a.id == item.id then item else a) : Item) = a := by
          simp [beq_eq_false_iff_ne.mpr ha]
        rw [h1]
    rw [heq]
    omega
  · rw [if_neg hany, keyCount, List.countP_append]
    have h0 : List.countP (fun it => it.id == item.id) t = 0 := by
      rw [List.countP_eq_zero]
      intro a ha hpa
      exact hany (List.any_eq_true.mpr ⟨a, ha, hpa⟩)
    have h1 : List.countP (fun it => it.id == item.id) [item] = 1 := by
      simp
    omega

lemma keyCount_putItem_le (t : Table) (item : Item) (id : String)
    (h : keyCount t id ≤ 1) : keyCount (putItem t item) id ≤ 1 := by
  by_cases hid : item.id = id
  · subst hid
    have := keyCount_putItem_self t item
    omega
  · rw [keyCount_putItem_ne t item id hid]
    exact h

/-- C1: `save_answer_record` is a compare-and-maybe-swap.  The call invokes
`put_item` (outcome Saved) exactly when no record is stored under the key's
answer id or the incoming score strictly beats the stored score; a Saved
call overwrites the key's record with the freshly built item (its `answer`
attribute is the incoming answer text, its `score` the rendered incoming
score); a Rejected call returns the table unchanged, so repeating a
non-improving save any number of times never changes the store. -/
theorem save_is_compare_and_maybe_swap (t : Table)
    (sid aid qid ans : String) (score : ℤ) :
    ((save_answer_record t sid aid qid ans score).2 = SaveOutcome.Saved ↔
      get_answer_record_from_dynamodb t sid aid qid = none ∨
        ∃ ex, get_answer_record_from_dynamodb t sid aid qid = some ex ∧
          storedScoreVal ex < score) ∧
    ((save_answer_record t sid aid qid ans score).2 = SaveOutcome.Saved →
      (save_answer_record t sid aid qid ans score).1 =
          putItem t (mkAnswerItem sid aid qid ans score) ∧
        get_answer_record_from_dynamodb
            (save_answer_record t sid aid qid ans score).1 sid aid qid =
          some (mkAnswerItem sid aid qid ans score)) ∧
    ((save_answer_record t sid aid qid ans score).2 = SaveOutcome.Rejected →
      (save_answer_record t sid aid qid ans score).1 = t ∧
        ∀ n, saveIter sid aid qid ans score n t = t) := by
  have hput : get_answer_record_from_dynamodb
      (putItem t (mkAnswerItem sid aid qid ans score)) sid aid qid =
      some (mkAnswerItem sid aid qid ans score) := by
    rw [get_answer_record_from_dynamodb]
    have hid : answerId sid aid qid = (mkAnswerItem sid aid qid ans score).id := rfl
    rw [hid]
    exact getItem_putItem_self _ _
  cases hg : get_answer_record_from_dynamodb t sid aid qid with
  | none =>
    have he : save_answer_record t sid aid qid ans score =
        (putItem t (mkAnswerItem sid aid qid ans score), SaveOutcome.Saved) := by
      rw [save_answer_record, hg]
    rw [he]
    exact ⟨by simp, fun _ => ⟨rfl, hput⟩, fun hc => SaveOutcome.noConfusion hc⟩
  | some ex =>
    by_cases hlt : storedScoreVal ex < score
    · have he : save_answer_record t sid aid qid ans score =
          (putItem t (mkAnswerItem sid aid qid ans score), SaveOutcome.Saved) := by
        rw [save_answer_record, hg]
        exact if_pos hlt
      rw [he]
      exact ⟨⟨fun _ => Or.inr ⟨ex, rfl, hlt⟩, fun _ => rfl⟩, fun _ => ⟨rfl, hput⟩,
        fun hc => SaveOutcome.noConfusion hc⟩
    · have he : save_answer_record t sid aid qid ans score = (t, SaveOutcome.Rejected) := by
        rw [save_answer_record, hg]
        exact if_neg hlt
      rw [he]
      refine ⟨⟨fun hc => SaveOutcome.noConfusion hc, ?_⟩,
        fun hc => SaveOutcome.noConfusion hc, fun _ => ⟨rfl, ?_⟩⟩
      · rintro (hnone | ⟨ex2, hex2, hlt2⟩)
        · cases hnone
        · cases hex2
          exact absurd hlt2 hlt
      · intro n
        induction n with
        | zero => rfl
        | succ m ih =>
          rw [saveIter]
          have hfix : (save_answer_record t sid aid qid ans score).1 = t := by
            rw [he]
          rw [hfix, ih]

lemma reqItem_id (r : SaveReq) : (reqItem r).id = reqId r := rfl

lemma maxOpt_some_le (l : List ℤ) : ∀ a : ℤ, ∃ b, maxOpt (some a) l = some b ∧ a ≤ b := by
  induction l with
  | nil => exact fun a => ⟨a, rfl, le_refl a⟩
  | cons s l ih =>
    intro a
    obtain ⟨b, hb, hab⟩ := ih (max a s)
    rw [maxOpt_cons_some]
    exact ⟨b, hb, le_trans (le_max_left a s) hab⟩

lemma optScoreLe_maxOpt (l : List ℤ) (o : Option ℤ) : optScoreLe o (maxOpt o l) := by
  cases o with
  | none => trivial
  | some a =>
    obtain ⟨b, hb, hab⟩ := maxOpt_some_le l a
    rw [hb]
    exact hab

lemma scoreAt_putItem_reqItem (t : Table) (r : SaveReq) :
    scoreAt (putItem t (reqItem r)) (reqId r) = some r.score := by
  rw [scoreAt, ← reqItem_id, getItem_putItem_self, Option.map_some']
  rw [reqItem, storedScoreVal_mkAnswerItem]

lemma scoreAt_putItem_ne (t : Table) (item : Item) (key : String) (h : key ≠ item.id) :
    scoreAt (putItem t item) key = scoreAt t key := by
  rw [scoreAt, getItem_putItem_ne t item key h, scoreAt]

/-- Invariant of a sequence of saves: the store still holds at most one
record under the key, and the stored score is the running maximum of the
initial score and the accepted submissions for the key. -/
lemma applySaves_maxOpt (reqs : List SaveReq) :
    ∀ (t : Table) (key : String), keyCount t key ≤ 1 →
      keyCount (applySaves reqs t) key ≤ 1 ∧
        scoreAt (applySaves reqs t) key =
          maxOpt (scoreAt t key) (acceptedFor reqs t key) := by
  induction reqs with
  | nil => exact fun t key h => ⟨h, rfl⟩
  | cons r rs ih =>
    intro t key h
    have happ : applySaves (r :: rs) t = applySaves rs (applySave t r) := rfl
    cases hg : get_answer_record_from_dynamodb t r.student_id r.assignment_id r.question_id with
    | none =>
      have hsave : save_answer_record t r.student_id r.assignment_id r.question_id
          r.answer r.score = (putItem t (reqItem r), SaveOutcome.Saved) := by
        rw [save_answer_record, hg, reqItem]
      have ht1 : applySave t r = putItem t (reqItem r) := by
        rw [applySave, hsave]
      have hcnt : keyCount (applySave t r) key ≤ 1 := by
        rw [ht1]
        exact keyCount_putItem_le t _ key h
      obtain ⟨hc, hs⟩ := ih (applySave t r) key hcnt
      refine ⟨by rw [happ]; exact hc, ?_⟩
      rw [happ, hs]
      by_cases hkey : reqId r = key
      · have hacc : acceptedFor (r :: rs) t key =
            r.score :: acceptedFor rs (applySave t r) key := by
          rw [acceptedFor, if_pos ⟨by rw [hsave], hkey⟩]
        rw [hacc]
        have hat : scoreAt t key = none := by
          rw [← hkey, scoreAt]
          have hgid : getItem t (reqId r) = none := hg
          rw [hgid, Option.map_none']
        have hat1 : scoreAt (applySave t r) key = some r.score := by
          rw [ht1, ← hkey]
          exact scoreAt_putItem_reqItem t r
        rw [hat, hat1, maxOpt_cons_none]
      · have hacc : acceptedFor (r :: rs) t key =
            acceptedFor rs (applySave t r) key := by
          rw [acceptedFor, if_neg (by intro hx; exact hkey hx.2)]
        have hat1 : scoreAt (applySave t r) key = scoreAt t key := by
          rw [ht1]
          exact scoreAt_putItem_ne t _ key (by rw [reqItem_id]; exact fun hx => hkey hx.symm)
        rw [hacc, hat1]
    | some ex =>
      by_cases hlt : storedScoreVal ex < r.score
      · have hsave : save_answer_record t r.student_id r.assignment_id r.question_id
            r.answer r.score = (putItem t (reqItem r), SaveOutcome.Saved) := by
          rw [save_answer_record, hg, reqItem]
          exact if_pos hlt
        have ht1 : applySave t r = putItem t (reqItem r) := by
          rw [applySave, hsave]
        have hcnt : keyCount (applySave t r) key ≤ 1 := by
          rw [ht1]
          exact keyCount_putItem_le t _ key h
        obtain ⟨hc, hs⟩ := ih (applySave t r) key hcnt
        refine ⟨by rw [happ]; exact hc, ?_⟩
        rw [happ, hs]
        by_cases hkey : reqId r = key
        · have hacc : acceptedFor (r :: rs) t key =
              r.score :: acceptedFor rs (applySave t r) key := by
            rw [acceptedFor, if_pos ⟨by rw [hsave], hkey⟩]
          rw [hacc]
          have hat : scoreAt t key = some (storedScoreVal ex) := by
            rw [← hkey, scoreAt]
            have hgid : getItem t (reqId r) = some ex := hg
            rw [hgid, Option.map_some']
          have hat1 : scoreAt (applySave t r) key = some r.score := by
            rw [ht1, ← hkey]
            exact scoreAt_putItem_reqItem t r
          rw [hat, hat1, maxOpt_cons_some, max_eq_right (le_of_lt hlt)]
        · have hacc : acceptedFor (r :: rs) t key =
              acceptedFor rs (applySave t r) key := by
            rw [acceptedFor, if_neg (by intro hx; exact hkey hx.2)]
          have hat1 : scoreAt (applySave t r) key = scoreAt t key := by
            rw [ht1]
            exact scoreAt_putItem_ne t _ key (by rw [reqItem_id]; exact fun hx => hkey hx.symm)
          rw [hacc, hat1]
      · have hsave : save_answer_record t r.student_id r.assignment_id r.question_id
            r.answer r.score = (t, SaveOutcome.Rejected) := by
          rw [save_answer_record, hg]
          exact if_neg hlt
        have ht1 : applySave t r = t := by
          rw [applySave, hsave]
        obtain ⟨hc, hs⟩ := ih (applySave t r) key (by rw [ht1]; exact h)
        refine ⟨by rw [happ]; exact hc, ?_⟩
        rw [happ, hs, ht1]
        have hacc : acceptedFor (r :: rs) t key =
            acceptedFor rs (applySave t r) key := by
          rw [acceptedFor, if_neg (by rw [hsave]; intro hx; exact SaveOutcome.noConfusion hx.1)]
        rw [hacc, ht1]

/-- C4: for a fixed key, across any sequence of `save_answer_record` calls
the store holds at most one record under the key's answer id at every
point, the stored score never decreases from any point to any later point,
and at the end it equals the maximum of the score at the intermediate
point and all scores accepted for the key after it. -/
theorem store_keeps_single_best_score (reqs l1 l2 : List SaveReq) (t : Table)
    (sid aid qid : String) (hsplit : reqs = l1 ++ l2)
    (h : keyCount t (answerId sid aid qid) ≤ 1) :
    keyCount (applySaves l1 t) (answerId sid aid qid) ≤ 1 ∧
      optScoreLe (scoreAt (applySaves l1 t) (answerId sid aid qid))
        (scoreAt (applySaves reqs t) (answerId sid aid qid)) ∧
      scoreAt (applySaves reqs t) (answerId sid aid qid) =
        maxOpt (scoreAt (applySaves l1 t) (answerId sid aid qid))
          (acceptedFor l2 (applySaves l1 t) (answerId sid aid qid)) := by
  subst hsplit
  obtain ⟨hc1, _⟩ := applySaves_maxOpt l1 t (answerId sid aid qid) h
  have happ : applySaves (l1 ++ l2) t = applySaves l2 (applySaves l1 t) := by
    rw [applySaves, applySaves, applySaves, List.foldl_append]
  obtain ⟨_, hs2⟩ := applySaves_maxOpt l2 (applySaves l1 t) (answerId sid aid qid) hc1
  refine ⟨hc1, ?_, ?_⟩
  · rw [happ, hs2]
    exact optScoreLe_maxOpt _ _
  · rw [happ, hs2]

/-- C4 witness: a concrete two-submission run from the empty table. -/
theorem store_keeps_single_best_score_witness :
    keyCount (applySaves [⟨"alice", "A1", "Q1", "first", 80⟩] [])
        (answerId "alice" "A1" "Q1") ≤ 1 ∧
      optScoreLe
        (scoreAt (applySaves [⟨"alice", "A1", "Q1", "first", 80⟩] [])
          (answerId "alice" "A1" "Q1"))
        (scoreAt
          (applySaves
            [⟨"alice", "A1", "Q1", "first", 80⟩, ⟨"alice", "A1", "Q1", "second", 60⟩] [])
          (answerId "alice" "A1" "Q1")) ∧
      scoreAt
          (applySaves
            [⟨"alice", "A1", "Q1", "first", 80⟩, ⟨"alice", "A1", "Q1", "second", 60⟩] [])
          (answerId "alice" "A1" "Q1") =
        maxOpt
          (scoreAt (applySaves [⟨"alice", "A1", "Q1", "first", 80⟩] [])
            (answerId "alice" "A1" "Q1"))
          (acceptedFor [⟨"alice", "A1", "Q1", "second", 60⟩]
            (applySaves [⟨"alice", "A1", "Q1", "first", 80⟩] [])
            (answerId "alice" "A1" "Q1")) :=
  store_keeps_single_best_score
    [⟨"alice", "A1", "Q1", "first", 80⟩, ⟨"alice", "A1", "Q1", "second", 60⟩]
    [⟨"alice", "A1", "Q1", "first", 80⟩] [⟨"alice", "A1", "Q1", "second", 60⟩]
    [] "alice" "A1" "Q1" rfl (by simp [keyCount])

/-- C5: the leaderboard read returns the stored answer records of the
queried (assignment, question) pair — some descending-by-score ordering of
exactly the filtered records — truncated to at most `limit` entries, and an
empty sequence (not an error) when no record exists for the pair.  The
embedding is a pure function of the table, so the store is not modified. -/
theorem topScores_sorted_truncated (t : Table) (aid qid : String) (limit : ℤ)
    (hl : 0 ≤ limit) :
    (∃ l : List Item, l.Perm (answerRecords t aid qid) ∧ SortedDesc l ∧
        get_high_score_answer_records_from_dynamodb t aid qid limit =
          l.take limit.toNat) ∧
      (get_high_score_answer_records_from_dynamodb t aid qid limit).length ≤
        limit.toNat ∧
      (answerRecords t aid qid = [] →
        get_high_score_answer_records_from_dynamodb t aid qid limit = []) := by
  have hout : get_high_score_answer_records_from_dynamodb t aid qid limit =
      (sortedByScoreDesc (answerRecords t aid qid)).take limit.toNat := by
    rw [get_high_score_answer_records_from_dynamodb, pySlice, if_pos hl]
  refine ⟨⟨sortedByScoreDesc (answerRecords t aid qid), ?_, ?_, hout⟩, ?_, ?_⟩
  · exact List.perm_insertionSort descRel _
  · exact List.sorted_insertionSort descRel _
  · rw [hout, List.length_take]
    exact min_le_left _ _
  · intro hnil
    rw [hout, sortedByScoreDesc, hnil]
    simp

/-- C5 witness: the query at a concrete table and positive limit. -/
theorem topScores_sorted_truncated_witness :
    (∃ l : List Item, l.Perm (answerRecords [] "A1" "Q1") ∧ SortedDesc l ∧
        get_high_score_answer_records_from_dynamodb [] "A1" "Q1" 5 =
          l.take (5 : ℤ).toNat) ∧
      (get_high_score_answer_records_from_dynamodb [] "A1" "Q1" 5).length ≤
        (5 : ℤ).toNat ∧
      (answerRecords [] "A1" "Q1" = [] →
        get_high_score_answer_records_from_dynamodb [] "A1" "Q1" 5 = []) :=
  topScores_sorted_truncated [] "A1" "Q1" 5 (by decide)

/-- C8 counterexample: with records stored for the key, a non-positive
limit does not fail with InvalidArgument — the query returns a list: the
empty list for limit 0, and all but the lowest-scoring record for
limit -1. -/
theorem topScores_nonpositive_limit_counterexample :
    get_high_score_answer_records_from_dynamodb sampleTable "A1" "Q1" 0 = [] ∧
      get_high_score_answer_records_from_dynamodb sampleTable "A1" "Q1" (-1) =
        [sampleItemA] := by
  constructor
  · rfl
  · rfl

/-- C8 amended: `get_high_score_answer_records_from_dynamodb` performs no
validation of `limit`; a non-positive limit is passed straight to the
Python slice, so limit 0 returns the empty list and a negative limit
returns the sorted records with the last `-limit` entries dropped. -/
theorem topScores_nonpositive_limit_behavior (t : Table) (aid qid : String)
    (limit : ℤ) (hl : limit ≤ 0) :
    ∃ l : List Item, l.Perm (answerRecords t aid qid) ∧ SortedDesc l ∧
      (limit = 0 →
        get_high_score_answer_records_from_dynamodb t aid qid limit = []) ∧
      (limit < 0 →
        get_high_score_answer_records_from_dynamodb t aid qid limit =
          l.take (l.length - (-limit).toNat)) := by
  refine ⟨sortedByScoreDesc (answerRecords t aid qid),
    List.perm_insertionSort descRel _, List.sorted_insertionSort descRel _, ?_, ?_⟩
  · intro h0
    subst h0
    rw [get_high_score_answer_records_from_dynamodb, pySlice, if_pos (le_refl 0)]
    rfl
  · intro hneg
    rw [get_high_score_answer_records_from_dynamodb, pySlice, if_neg (by omega)]

/-- C8 amended witness: the concrete two-record table at limit -1. -/
theorem topScores_nonpositive_limit_behavior_witness :
    ∃ l : List Item, l.Perm (answerRecords sampleTable "A1" "Q1") ∧ SortedDesc l ∧
      ((-1 : ℤ) = 0 →
        get_high_score_answer_records_from_dynamodb sampleTable "A1" "Q1" (-1) = []) ∧
      ((-1 : ℤ) < 0 →
        get_high_score_answer_records_from_dynamodb sampleTable "A1" "Q1" (-1) =
          l.take (l.length - (-(-1 : ℤ)).toNat)) :=
  topScores_nonpositive_limit_behavior sampleTable "A1" "Q1" (-1) (by decide)

lemma dot_cons (a b : ℚ) (u v : List ℚ) : dot (a :: u) (b :: v) = a * b + dot u v := by
  rw [dot, List.zipWith_cons_cons, List.sum_cons, dot]

lemma dot_nil_left (v : List ℚ) : dot [] v = 0 := rfl

lemma dot_nil_right (u : List ℚ) : dot u [] = 0 := by
  rw [dot, List.zipWith_nil_right, List.sum_nil]

lemma dot_self_nonneg (v : List ℚ) : 0 ≤ dot v v := by
  induction v with
  | nil => exact le_refl 0
  | cons a u ih =>
    rw [dot_cons]
    have ha : 0 ≤ a * a := mul_self_nonneg a
    linarith

/-- Cauchy-Schwarz for the list dot product. -/
lemma dot_sq_le (u : List ℚ) : ∀ v : List ℚ, (dot u v) ^ 2 ≤ dot u u * dot v v := by
  induction u with
  | nil =>
    intro v
    rw [dot_nil_left, dot_nil_left]
    norm_num
  | cons a u ih =>
    intro v
    cases v with
    | nil =>
      rw [dot_nil_right, dot_nil_right]
      norm_num
    | cons b v =>
      rw [dot_cons, dot_cons, dot_cons]
      have hD := ih v
      have hU := dot_self_nonneg u
      have hV := dot_self_nonneg v
      by_cases hV0 : dot v v = 0
      · have hDz : dot u v = 0 := by
          have h1 : dot u v ^ 2 ≤ 0 := by rw [← mul_zero (dot u u), ← hV0]; exact hD
          have h2 : (0:ℚ) ≤ dot u v ^ 2 := sq_nonneg _
          have h3 : dot u v ^ 2 = 0 := le_antisymm h1 h2
          exact pow_eq_zero_iff (by norm_num) |>.mp h3
        rw [hV0, hDz]
        nlinarith [mul_nonneg hU (mul_self_nonneg b)]
      · have hVpos : 0 < dot v v := lt_of_le_of_ne hV (Ne.symm hV0)
        nlinarith [sq_nonneg (a * dot v v - b * dot u v),
          mul_nonneg (mul_self_nonneg b) (sub_nonneg.mpr hD),
          mul_nonneg hV (sub_nonneg.mpr hD), hVpos]

lemma cosineDistance_nonneg (u v : List ℚ) : 0 ≤ cosineDistance u v :=
  le_max_left 0 _

lemma cosineDistance_le_two (u v : List ℚ) : cosineDistance u v ≤ 2 :=
  max_le (by norm_num) (min_le_right _ 2)

lemma pyInt_intCast (z : ℤ) : pyInt ((z : ℤ) : ℝ) = z := by
  rw [pyInt]
  by_cases h : (0:ℝ) ≤ (z : ℝ)
  · rw [if_pos h, Int.floor_intCast]
  · rw [if_neg h, Int.ceil_intCast]

lemma pyInt_le_hundred (x : ℝ) (h : x ≤ 100) : pyInt x ≤ 100 := by
  rw [pyInt]
  by_cases h0 : (0:ℝ) ≤ x
  · rw [if_pos h0]
    have hx : (⌊x⌋ : ℝ) ≤ 100 := le_trans (Int.floor_le x) h
    exact_mod_cast hx
  · rw [if_neg h0]
    have hx : ⌈x⌉ ≤ 0 := Int.ceil_le.mpr (by exact_mod_cast le_of_not_le h0)
    omega

lemma pyInt_ge_neg_hundred (x : ℝ) (h : -100 ≤ x) : -100 ≤ pyInt x := by
  rw [pyInt]
  by_cases h0 : (0:ℝ) ≤ x
  · rw [if_pos h0]
    have hx : (0:ℤ) ≤ ⌊x⌋ := Int.floor_nonneg.mpr h0
    omega
  · rw [if_neg h0]
    have hx : (-100 : ℝ) ≤ (⌈x⌉ : ℝ) := le_trans h (Int.le_ceil x)
    exact_mod_cast hx

lemma computeScore_ok (u v : List ℚ) (hlen : u.length = v.length)
    (hu : dot u u ≠ 0) (hv : dot v v ≠ 0) :
    computeScore u v = Except.ok (pyInt (100 - cosineDistance u v * 100)) := by
  rw [computeScore, if_neg (fun hne => hne hlen), if_neg (by rintro (h | h) <;> [exact hu h; exact hv h])]

lemma dot_neg_right (u : List ℚ) : ∀ v : List ℚ, dot u (v.map (fun x => -x)) = -(dot u v) := by
  induction u with
  | nil => intro v; rw [dot_nil_left, dot_nil_left, neg_zero]
  | cons a u ih =>
    intro v
    cases v with
    | nil => simp [dot_nil_right]
    | cons b v =>
      rw [List.map_cons, dot_cons, dot_cons, ih v]
      ring

lemma dot_neg_both (u : List ℚ) :
    ∀ v : List ℚ, dot (u.map (fun x => -x)) (v.map (fun x => -x)) = dot u v := by
  induction u with
  | nil => intro v; rw [List.map_nil, dot_nil_left, dot_nil_left]
  | cons a u ih =>
    intro v
    cases v with
    | nil => simp [dot_nil_right]
    | cons b v =>
      rw [List.map_cons, List.map_cons, dot_cons, dot_cons, ih v]
      ring

/-- C9: scoring a nonzero vector against itself gives exactly 100. -/
theorem score_self_is_hundred (v : List ℚ) (hv : dot v v ≠ 0) :
    computeScore v v = Except.ok 100 := by
  have hpos : (0:ℚ) < dot v v := lt_of_le_of_ne (dot_self_nonneg v) (Ne.symm hv)
  have hposR : (0:ℝ) < ((dot v v : ℚ) : ℝ) := by exact_mod_cast hpos
  have hd : cosineDistance v v = 0 := by
    rw [cosineDistance, Real.sqrt_mul_self (le_of_lt hposR), div_self (ne_of_gt hposR)]
    norm_num
  rw [computeScore_ok v v rfl hv hv, hd]
  rw [show ((100:ℝ) - 0 * 100) = ((100 : ℤ) : ℝ) by norm_num, pyInt_intCast]

/-- C9 witness: the one-entry unit vector scores 100 against itself. -/
theorem score_self_is_hundred_witness :
    computeScore [(1:ℚ)] [(1:ℚ)] = Except.ok 100 :=
  score_self_is_hundred [(1:ℚ)] (by norm_num [dot_cons, dot_nil_left])

/-- C6: vectors of different lengths never get a numeric score; the block
fails with the DimensionMismatch outcome. -/
theorem score_dimension_mismatch (u v : List ℚ) (h : u.length ≠ v.length) :
    computeScore u v = Except.error ScoreError.DimensionMismatch := by
  rw [computeScore, if_pos h]

/-- C6 witness: a length-1 and a length-2 vector. -/
theorem score_dimension_mismatch_witness :
    computeScore [(1:ℚ)] [(1:ℚ), 0] = Except.error ScoreError.DimensionMismatch :=
  score_dimension_mismatch [(1:ℚ)] [(1:ℚ), 0] (by decide)

/-- C7: on equal-length vectors of which at least one has zero magnitude
the block fails with the EmptyVector outcome instead of returning a
score. -/
theorem score_empty_vector (u v : List ℚ) (hlen : u.length = v.length)
    (hz : dot u u = 0 ∨ dot v v = 0) :
    computeScore u v = Except.error ScoreError.EmptyVector := by
  rw [computeScore, if_neg (fun hne => hne hlen), if_pos hz]

/-- C7 witness: two zero vectors of length 1. -/
theorem score_empty_vector_witness :
    computeScore [(0:ℚ)] [(0:ℚ)] = Except.error ScoreError.EmptyVector :=
  score_empty_vector [(0:ℚ)] [(0:ℚ)] rfl (Or.inl (by norm_num [dot_cons, dot_nil_left]))

/-- C2 counterexample: the opposite unit vectors are equal-length nonzero
vectors, yet the code scores them -100 — outside the claimed range
and not the claimed clamped 0 (the block applies no clamp). -/
theorem score_clamp_counterexample :
    computeScore [(1:ℚ)] [(-1:ℚ)] = Except.ok (-100) ∧ (-100 : ℤ) < 0 := by
  refine ⟨?_, by norm_num⟩
  have h1 : dot [(1:ℚ)] [(-1:ℚ)] = -1 := by norm_num [dot_cons, dot_nil_left]
  have h2 : dot [(1:ℚ)] [(1:ℚ)] = 1 := by norm_num [dot_cons, dot_nil_left]
  have h3 : dot [(-1:ℚ)] [(-1:ℚ)] = 1 := by norm_num [dot_cons, dot_nil_left]
  have hd : cosineDistance [(1:ℚ)] [(-1:ℚ)] = 2 := by
    rw [cosineDistance, h1, h2, h3]
    push_cast
    rw [show ((1:ℝ) * 1) = 1 by norm_num, Real.sqrt_one]
    norm_num
  rw [computeScore_ok [(1:ℚ)] [(-1:ℚ)] rfl (by rw [h2]; norm_num) (by rw [h3]; norm_num), hd]
  rw [show ((100:ℝ) - 2 * 100) = ((-100 : ℤ) : ℝ) by norm_num, pyInt_intCast]

/-- C2 amended: on equal-length nonzero vectors the score lies in the
interval from -100 to 100 (nothing clamps the lower end at 0), and
antiparallel vectors score exactly -100, not 0. -/
theorem score_range_amended :
    (∀ u v : List ℚ, u.length = v.length → dot u u ≠ 0 → dot v v ≠ 0 →
      ∃ s : ℤ, computeScore u v = Except.ok s ∧ -100 ≤ s ∧ s ≤ 100) ∧
    (∀ u : List ℚ, dot u u ≠ 0 →
      computeScore u (u.map (fun x => -x)) = Except.ok (-100)) := by
  constructor
  · intro u v hlen hu hv
    refine ⟨pyInt (100 - cosineDistance u v * 100), computeScore_ok u v hlen hu hv, ?_, ?_⟩
    · exact pyInt_ge_neg_hundred _ (by nlinarith [cosineDistance_le_two u v])
    · exact pyInt_le_hundred _ (by nlinarith [cosineDistance_nonneg u v])
  · intro u hu
    have hpos : (0:ℚ) < dot u u := lt_of_le_of_ne (dot_self_nonneg u) (Ne.symm hu)
    have hposR : (0:ℝ) < ((dot u u : ℚ) : ℝ) := by exact_mod_cast hpos
    have hlen : u.length = (u.map (fun x => -x)).length := (List.length_map u _).symm
    have hneg : dot u (u.map (fun x => -x)) = -(dot u u) := dot_neg_right u u
    have hboth : dot (u.map (fun x => -x)) (u.map (fun x => -x)) = dot u u := dot_neg_both u u
    have hd : cosineDistance u (u.map (fun x => -x)) = 2 := by
      rw [cosineDistance, hneg, hboth]
      rw [Real.sqrt_mul_self (le_of_lt hposR)]
      rw [show ((-(dot u u) : ℚ) : ℝ) = -((dot u u : ℚ) : ℝ) by push_cast; ring]
      rw [neg_div, div_self (ne_of_gt hposR)]
      norm_num
    rw [computeScore_ok _ _ hlen hu (by rw [hboth]; exact hu), hd]
    rw [show ((100:ℝ) - 2 * 100) = ((-100 : ℤ) : ℝ) by norm_num, pyInt_intCast]

/-- C3 counterexample: at the vectors (1,2,2) and (2,2,1) the cosine
similarity is 8/9, so the claimed rounded score is 89, but the code's
truncation `int(100 - dist * 100)` yields 88. -/
theorem score_rounding_counterexample :
    computeScore [(1:ℚ), 2, 2] [(2:ℚ), 2, 1] = Except.ok 88 ∧
      round ((100:ℝ) * ((dot [(1:ℚ), 2, 2] [(2:ℚ), 2, 1] : ℝ) /
        (Real.sqrt ((dot [(1:ℚ), 2, 2] [(1:ℚ), 2, 2] : ℚ) : ℝ) *
          Real.sqrt ((dot [(2:ℚ), 2, 1] [(2:ℚ), 2, 1] : ℚ) : ℝ)))) = 89 ∧
      (88 : ℤ) ≠ 89 := by
  have huv : dot [(1:ℚ), 2, 2] [(2:ℚ), 2, 1] = 8 := by
    norm_num [dot_cons, dot_nil_left]
  have huu : dot [(1:ℚ), 2, 2] [(1:ℚ), 2, 2] = 9 := by
    norm_num [dot_cons, dot_nil_left]
  have hvv : dot [(2:ℚ), 2, 1] [(2:ℚ), 2, 1] = 9 := by
    norm_num [dot_cons, dot_nil_left]
  have hsqrt9 : Real.sqrt ((9:ℚ) : ℝ) = 3 := by
    rw [show ((9:ℚ) : ℝ) = (3:ℝ) ^ 2 by norm_num]
    exact Real.sqrt_sq (by norm_num)
  refine ⟨?_, ?_, by norm_num⟩
  · have hd : cosineDistance [(1:ℚ), 2, 2] [(2:ℚ), 2, 1] = 1 / 9 := by
      rw [cosineDistance, huv, huu, hvv]
      rw [show (((9:ℚ):ℝ) * ((9:ℚ):ℝ)) = ((9:ℝ)) * ((9:ℝ)) by push_cast; ring]
      rw [Real.sqrt_mul_self (by norm_num : (0:ℝ) ≤ 9)]
      push_cast
      rw [min_eq_left (by norm_num), max_eq_right (by norm_num)]
      norm_num
    rw [computeScore_ok [(1:ℚ), 2, 2] [(2:ℚ), 2, 1] rfl
      (by rw [huu]; norm_num) (by rw [hvv]; norm_num), hd]
    have harg : ((100:ℝ) - 1 / 9 * 100) = 800 / 9 := by norm_num
    rw [harg, pyInt, if_pos (by norm_num : (0:ℝ) ≤ 800 / 9)]
    congr 1
    rw [Int.floor_eq_iff]
    constructor <;> norm_num
  · rw [huv, huu, hvv, hsqrt9]
    rw [show ((100:ℝ) * (((8:ℚ):ℝ) / (3 * 3))) = 800 / 9 by push_cast; ring]
    rw [round_eq, show ((800:ℝ) / 9 + 1 / 2) = 1609 / 18 by norm_num]
    rw [Int.floor_eq_iff]
    constructor <;> norm_num

/-- C3 amended: on equal-length nonzero vectors the code returns the
truncation toward zero of 100 times the cosine similarity (not the
rounding): `int(100 - dist * 100)` with the exact scipy distance. -/
theorem score_is_truncated_similarity (u v : List ℚ) (hlen : u.length = v.length)
    (hu : dot u u ≠ 0) (hv : dot v v ≠ 0) :
    computeScore u v =
      Except.ok (pyInt (100 * ((dot u v : ℝ) /
        (Real.sqrt ((dot u u : ℚ) : ℝ) * Real.sqrt ((dot v v : ℚ) : ℝ))))) := by
  have hUpos : (0:ℝ) < ((dot u u : ℚ) : ℝ) := by
    exact_mod_cast lt_of_le_of_ne (dot_self_nonneg u) (Ne.symm hu)
  have hVpos : (0:ℝ) < ((dot v v : ℚ) : ℝ) := by
    exact_mod_cast lt_of_le_of_ne (dot_self_nonneg v) (Ne.symm hv)
  have hsq : Real.sqrt (((dot u u : ℚ) : ℝ) * ((dot v v : ℚ) : ℝ)) =
      Real.sqrt ((dot u u : ℚ) : ℝ) * Real.sqrt ((dot v v : ℚ) : ℝ) :=
    Real.sqrt_mul (le_of_lt hUpos) _
  have hden : (0:ℝ) < Real.sqrt ((dot u u : ℚ) : ℝ) * Real.sqrt ((dot v v : ℚ) : ℝ) :=
    mul_pos (Real.sqrt_pos.mpr hUpos) (Real.sqrt_pos.mpr hVpos)
  have hCS : ((dot u v : ℚ) : ℝ) ^ 2 ≤ ((dot u u : ℚ) : ℝ) * ((dot v v : ℚ) : ℝ) := by
    exact_mod_cast dot_sq_le u v
  have habs : |((dot u v : ℚ) : ℝ)| ≤
      Real.sqrt ((dot u u : ℚ) : ℝ) * Real.sqrt ((dot v v : ℚ) : ℝ) := by
    rw [← hsq, ← Real.sqrt_sq_eq_abs]
    exact Real.sqrt_le_sqrt hCS
  have hsim_le : ((dot u v : ℚ) : ℝ) /
      (Real.sqrt ((dot u u : ℚ) : ℝ) * Real.sqrt ((dot v v : ℚ) : ℝ)) ≤ 1 :=
    (div_le_one hden).mpr (le_trans (le_abs_self _) habs)
  have hsim_ge : (-1 : ℝ) ≤ ((dot u v : ℚ) : ℝ) /
      (Real.sqrt ((dot u u : ℚ) : ℝ) * Real.sqrt ((dot v v : ℚ) : ℝ)) := by
    rw [le_div_iff₀ hden]
    have hlow := (abs_le.mp habs).1
    linarith
  have hd : cosineDistance u v = 1 - ((dot u v : ℚ) : ℝ) /
      (Real.sqrt ((dot u u : ℚ) : ℝ) * Real.sqrt ((dot v v : ℚ) : ℝ)) := by
    rw [cosineDistance, hsq, min_eq_left (by linarith), max_eq_right (by linarith)]
  rw [computeScore_ok u v hlen hu hv, hd]
  congr 1
  ring_nf

/-- C3 amended witness: the formula applied at the unit vector against
itself. -/
theorem score_is_truncated_similarity_witness :
    computeScore [(1:ℚ)] [(1:ℚ)] =
      Except.ok (pyInt (100 * ((dot [(1:ℚ)] [(1:ℚ)] : ℝ) /
        (Real.sqrt ((dot [(1:ℚ)] [(1:ℚ)] : ℚ) : ℝ) *
          Real.sqrt ((dot [(1:ℚ)] [(1:ℚ)] : ℚ) : ℝ))))) :=
  score_is_truncated_similarity [(1:ℚ)] [(1:ℚ)] rfl
    (by norm_num [dot_cons, dot_nil_left]) (by norm_num [dot_cons, dot_nil_left])

/-- C10: the stored score string round-trips — parsing the decimal
rendering recovers every integer score exactly — so the comparison in
`save_answer_record` and the leaderboard's sort key are numeric
comparisons of the original scores, never lexicographic string
comparisons: the rendering of 100 is lexicographically below that of 95,
yet the stored score it denotes compares above. -/
theorem stored_scores_compare_numerically :
    (∀ s : ℤ, parseFloatInt (pyStr s) = some s) ∧
    (∀ (sid aid qid ans : String) (s : ℤ),
        storedScoreVal (mkAnswerItem sid aid qid ans s) = s) ∧
    strLexLt (pyStr 100) (pyStr 95) ∧
    storedScoreVal (mkAnswerItem "s1" "a1" "q1" "t1" 95) <
      storedScoreVal (mkAnswerItem "s1" "a1" "q1" "t1" 100) := by
  have h100 : (pyStr 100).data = ['1', '0', '0'] := by
    rw [pyStr, if_neg (by norm_num)]
    show natToChars (100:ℤ).toNat = _
    rw [show ((100:ℤ).toNat) = 100 from rfl, natToChars, if_neg (by norm_num)]
    rw [show Nat.digits 10 100 = [0, 0, 1] by simp]
    decide
  have h95 : (pyStr 95).data = ['9', '5'] := by
    rw [pyStr, if_neg (by norm_num)]
    show natToChars (95:ℤ).toNat = _
    rw [show ((95:ℤ).toNat) = 95 from rfl, natToChars, if_neg (by norm_num)]
    rw [show Nat.digits 10 95 = [5, 9] by simp]
    decide
  refine ⟨parseFloatInt_pyStr,
    fun sid aid qid ans s => storedScoreVal_mkAnswerItem sid aid qid ans s, ?_, ?_⟩
  · rw [strLexLt, h100, h95]
    exact List.Lex.rel (by decide)
  · rw [storedScoreVal_mkAnswerItem, storedScoreVal_mkAnswerItem]
    norm_num

end AssignmentApp
